import Mathlib

/-!
Verification of the LEARN-X AI gateway core (python-ai-service):
the circuit breaker (`services/ai/circuit_breaker.py`), the provider
router (`services/ai/manager.py`) and the batch scheduler
(`services/ai/batch_processor.py`), shallowly embedded in Lean 4.

Time is modelled as an integer number of seconds; monetary amounts and
the batch decision score are rationals (the Python floats involved in
the settled claims are all far from the decision boundaries, so the
rational model decides every admissibility comparison the same way the
float code does).
-/

namespace LearnX

/-! ## Circuit breaker (services/ai/circuit_breaker.py) -/

/-- States of the `CircuitBreakerState` enum (circuit_breaker.py lines 17-21). -/
inductive CBState where
  | Closed
  | Open
  | HalfOpen
deriving DecidableEq, Repr

/-- Constructor configuration of `CircuitBreaker` (lines 27-37):
`failure_threshold` (default 5) and `recovery_timeout` (default 60). -/
structure CBConfig where
  failureThreshold : Nat
  recoveryTimeout : Int
deriving DecidableEq, Repr

/-- Mutable fields of a `CircuitBreaker` instance (lines 39-41):
`_failure_count`, `_last_failure_time`, `_state`. -/
structure Breaker where
  failureCount : Nat
  lastFailureTime : Option Int
  state : CBState
deriving DecidableEq, Repr

/-- Initial breaker state (lines 39-41): count 0, no failure time, CLOSED. -/
def Breaker.init : Breaker := ⟨0, none, CBState.Closed⟩

/-- Predicate `_should_attempt_reset` (lines 108-115): true when a last failure is
recorded and at least `recovery_timeout` seconds have elapsed since. -/
def shouldAttemptReset (cfg : CBConfig) (now : Int) (b : Breaker) : Bool :=
  match b.lastFailureTime with
  | none => false
  | some t => decide (now - t ≥ cfg.recoveryTimeout)

/-- Transition `_on_success` (lines 117-125): reset counter and failure time; a
HALF_OPEN breaker recovers to CLOSED. -/
def onSuccess (b : Breaker) : Breaker :=
  { failureCount := 0
    lastFailureTime := none
    state := if b.state = CBState.HalfOpen then CBState.Closed else b.state }

/-- Transition `_on_failure` (lines 127-143): increment the counter, stamp the
failure time; reaching the threshold moves to OPEN, and a HALF_OPEN
breaker falls back to OPEN. -/
def onFailure (cfg : CBConfig) (now : Int) (b : Breaker) : Breaker :=
  let fc := b.failureCount + 1
  { failureCount := fc
    lastFailureTime := some now
    state :=
      if cfg.failureThreshold ≤ fc then CBState.Open
      else if b.state = CBState.HalfOpen then CBState.Open
      else b.state }

/-- Manual `reset` (lines 145-151): unconditionally back to CLOSED. -/
def resetBreaker (_b : Breaker) : Breaker := ⟨0, none, CBState.Closed⟩

/-- Outcome of the wrapped function inside `call`: it returns normally,
raises an exception of the configured expected category, or raises an
unexpected exception (lines 58-78). -/
inductive CallOutcome where
  | ok
  | expectedErr
  | unexpectedErr
deriving DecidableEq, Repr

/-- What `call` does, seen from the caller: rejected with the
"Circuit breaker is OPEN" error (wrapped function never invoked),
returned a value, or re-raised the wrapped function's exception. -/
inductive CallResult where
  | rejectedOpen
  | succeeded
  | failedExpected
  | failedUnexpected
deriving DecidableEq, Repr

/-- The admission prologue of `call` / `call_async_generator`
(lines 51-56 and 85-90): an OPEN breaker either rejects the call or,
when the recovery timeout has elapsed, admits it as a probe after
moving to HALF_OPEN; any other state admits unchanged. -/
def admitPhase (cfg : CBConfig) (now : Int) (b : Breaker) : Bool × Breaker :=
  if b.state = CBState.Open then
    if shouldAttemptReset cfg now b then
      (true, { b with state := CBState.HalfOpen })
    else (false, b)
  else (true, b)

/-- One sequential execution of `CircuitBreaker.call` (lines 49-78): the
admission prologue, then the wrapped function, then the success /
expected-failure / unexpected-failure epilogue.  `call_async_generator`
(lines 80-106) has the identical state-transition structure, with the
outcome determined after the last fragment is consumed. -/
def callStep (cfg : CBConfig) (now : Int) (o : CallOutcome) (b : Breaker) :
    CallResult × Breaker :=
  let (adm, b1) := admitPhase cfg now b
  if adm then
    match o with
    | CallOutcome.ok => (CallResult.succeeded, onSuccess b1)
    | CallOutcome.expectedErr => (CallResult.failedExpected, onFailure cfg now b1)
    | CallOutcome.unexpectedErr => (CallResult.failedUnexpected, b1)
  else (CallResult.rejectedOpen, b1)

/-- The wrapped function is invoked exactly when the call was not
rejected by an OPEN breaker (lines 52-65). -/
def invokesBackend : CallResult → Bool
  | CallResult.rejectedOpen => false
  | _ => true

/-- Folding a list of expected-category failures (timestamps `ts`)
through `call`. -/
def foldFailures (cfg : CBConfig) (ts : List Int) (b : Breaker) : Breaker :=
  ts.foldl (fun s t => (callStep cfg t CallOutcome.expectedErr s).2) b

/-- Behaviour of a run of expected-category failures starting from a
CLOSED breaker that stays at or below the failure threshold: the
counter adds up, the failure time is the last timestamp, and the state
is OPEN exactly when the threshold was reached by a nonempty run. -/
theorem foldFailures_spec (cfg : CBConfig) :
    ∀ (ts : List Int) (b : Breaker), b.state = CBState.Closed →
    b.failureCount + ts.length ≤ cfg.failureThreshold →
    (foldFailures cfg ts b).failureCount = b.failureCount + ts.length ∧
    (foldFailures cfg ts b).lastFailureTime =
      (match ts.getLast? with
       | some t => some t
       | none => b.lastFailureTime) ∧
    (foldFailures cfg ts b).state =
      (if cfg.failureThreshold ≤ b.failureCount + ts.length ∧ ts ≠ []
       then CBState.Open else CBState.Closed) := by
  intro ts
  induction ts with
  | nil =>
    intro b hb _
    simp [foldFailures, hb]
  | cons t rest ih =>
    intro b hb hle
    have hstep : (callStep cfg t CallOutcome.expectedErr b).2 =
        onFailure cfg t b := by
      simp [callStep, admitPhase, hb]
    have hfold : foldFailures cfg (t :: rest) b =
        foldFailures cfg rest (onFailure cfg t b) := by
      simp [foldFailures, List.foldl_cons, hstep]
    cases rest with
    | nil =>
      refine ⟨?_, ?_, ?_⟩ <;>
        rw [hfold] <;> simp only [foldFailures, List.foldl_nil]
      · simp [onFailure]
      · simp [onFailure]
      · simp only [onFailure, hb]
        by_cases hth : cfg.failureThreshold ≤ b.failureCount + 1
        · simp [hth]
        · simp [hth]
    | cons t2 rest2 =>
      have hlt : b.failureCount + 1 < cfg.failureThreshold := by
        simp only [List.length_cons] at hle
        omega
      have hstate : (onFailure cfg t b).state = CBState.Closed := by
        simp only [onFailure, hb]
        have hx : ¬ cfg.failureThreshold ≤ b.failureCount + 1 := by omega
        simp [hx]
      have hcount : (onFailure cfg t b).failureCount = b.failureCount + 1 := rfl
      have hle2 : (onFailure cfg t b).failureCount + (t2 :: rest2).length ≤
          cfg.failureThreshold := by
        simp only [hcount, List.length_cons] at *
        omega
      obtain ⟨h1, h2, h3⟩ := ih (onFailure cfg t b) hstate hle2
      refine ⟨?_, ?_, ?_⟩
      · rw [hfold, h1, hcount]
        simp only [List.length_cons]
        omega
      · rw [hfold, h2]
        cases hgl : (t2 :: rest2).getLast? with
        | none => simp at hgl
        | some x => simp [List.getLast?_cons_cons, hgl]
      · rw [hfold, h3, hcount]
        have hx : b.failureCount + 1 + (t2 :: rest2).length =
            b.failureCount + (t :: t2 :: rest2).length := by
          simp only [List.length_cons]
          omega
        rw [hx]
        simp

/-- C1: starting from Closed, after exactly `failureThreshold`
consecutive expected-category failures the breaker is Open; a call made
before `recoveryTimeout` has elapsed since the last failure is rejected
with the breaker-open error without invoking the wrapped function and
leaves the state untouched; once `recoveryTimeout` has elapsed the next
call is admitted as a probe (state HalfOpen), a successful probe yields
Closed and a failing probe yields Open. -/
theorem circuit_breaker_trace (cfg : CBConfig) (_hth : 0 < cfg.failureThreshold)
    (ts : List Int) (hlen : ts.length = cfg.failureThreshold)
    (tn : Int) (hlast : ts.getLast? = some tn) :
    (foldFailures cfg ts Breaker.init).state = CBState.Open ∧
    (∀ (t : Int) (o : CallOutcome), t - tn < cfg.recoveryTimeout →
      callStep cfg t o (foldFailures cfg ts Breaker.init) =
        (CallResult.rejectedOpen, foldFailures cfg ts Breaker.init) ∧
      invokesBackend (callStep cfg t o (foldFailures cfg ts Breaker.init)).1 = false) ∧
    (∀ t : Int, cfg.recoveryTimeout ≤ t - tn →
      admitPhase cfg t (foldFailures cfg ts Breaker.init) =
        (true, { foldFailures cfg ts Breaker.init with state := CBState.HalfOpen }) ∧
      (callStep cfg t CallOutcome.ok (foldFailures cfg ts Breaker.init)).2.state =
        CBState.Closed ∧
      (callStep cfg t CallOutcome.expectedErr (foldFailures cfg ts Breaker.init)).2.state =
        CBState.Open) := by
  have hne : ts ≠ [] := by
    intro h
    rw [h] at hlast
    simp [List.getLast?] at hlast
  obtain ⟨h1, h2, h3⟩ := foldFailures_spec cfg ts Breaker.init rfl
    (by simp [Breaker.init, hlen])
  rw [hlast] at h2
  have h2' : (foldFailures cfg ts Breaker.init).lastFailureTime = some tn := h2
  have h1' : (foldFailures cfg ts Breaker.init).failureCount = cfg.failureThreshold := by
    rw [h1, hlen]
    simp [Breaker.init]
  have hopen : (foldFailures cfg ts Breaker.init).state = CBState.Open := by
    rw [h3]
    have hx : cfg.failureThreshold ≤ Breaker.init.failureCount + ts.length := by
      simp [Breaker.init, hlen]
    simp [hx, hne]
  refine ⟨hopen, ?_, ?_⟩
  · intro t o hlt
    have hres : shouldAttemptReset cfg t (foldFailures cfg ts Breaker.init) = false := by
      simp only [shouldAttemptReset, h2']
      simp only [decide_eq_false_iff_not]
      omega
    constructor
    · simp [callStep, admitPhase, hopen, hres]
    · simp [callStep, admitPhase, hopen, hres, invokesBackend]
  · intro t hge
    have hres : shouldAttemptReset cfg t (foldFailures cfg ts Breaker.init) = true := by
      simp only [shouldAttemptReset, h2']
      simp only [decide_eq_true_eq]
      omega
    refine ⟨?_, ?_, ?_⟩
    · simp [admitPhase, hopen, hres]
    · simp [callStep, admitPhase, hopen, hres, onSuccess]
    · have hx : cfg.failureThreshold ≤ cfg.failureThreshold + 1 := Nat.le_succ _
      simp [callStep, admitPhase, hopen, hres, onFailure, h1', hx]

/-- Witness for C1 with the default configuration (threshold 5,
recovery timeout 60): five failures at times 0..4 open the breaker; a
call at time 10 is rejected with the state untouched; a call at time
100 succeeds as a probe and closes the breaker. -/
theorem circuit_breaker_trace_witness :
    (foldFailures ⟨5, 60⟩ [0, 1, 2, 3, 4] Breaker.init).state = CBState.Open ∧
    callStep ⟨5, 60⟩ 10 CallOutcome.ok (foldFailures ⟨5, 60⟩ [0, 1, 2, 3, 4] Breaker.init) =
      (CallResult.rejectedOpen, foldFailures ⟨5, 60⟩ [0, 1, 2, 3, 4] Breaker.init) ∧
    (callStep ⟨5, 60⟩ 100 CallOutcome.ok
      (foldFailures ⟨5, 60⟩ [0, 1, 2, 3, 4] Breaker.init)).2.state = CBState.Closed := by
  have h := circuit_breaker_trace ⟨5, 60⟩ (by decide) [0, 1, 2, 3, 4] (by decide) 4 (by decide)
  exact ⟨h.1, (h.2.1 10 CallOutcome.ok (by decide)).1, (h.2.2 100 (by decide)).2.1⟩

/-- C4 counterexample: after five expected failures the breaker is
Open, and a single `reset` operation moves it directly to Closed,
with no HalfOpen state and no probe call involved (reset never invokes
the wrapped function), refuting the claim for operation sequences that
include `reset`. -/
theorem reset_open_to_closed_counterexample :
    (foldFailures ⟨5, 60⟩ [0, 0, 0, 0, 0] Breaker.init).state = CBState.Open ∧
    (resetBreaker (foldFailures ⟨5, 60⟩ [0, 0, 0, 0, 0] Breaker.init)).state =
      CBState.Closed := by decide

/-- C4 amended: restricted to `call` / `call_async_generator`
operations (manual `reset` excluded), the breaker never moves from Open
to Closed except via a successful probe: whenever a call step takes an
Open breaker to Closed, the admission phase first set the state to
HalfOpen and the call completed successfully. -/
theorem open_to_closed_only_via_probe (cfg : CBConfig) (now : Int)
    (o : CallOutcome) (b : Breaker) (hb : b.state = CBState.Open)
    (hc : (callStep cfg now o b).2.state = CBState.Closed) :
    (admitPhase cfg now b).2.state = CBState.HalfOpen ∧
    (callStep cfg now o b).1 = CallResult.succeeded := by
  by_cases hres : shouldAttemptReset cfg now b = true
  · cases o with
    | ok => simp [callStep, admitPhase, hb, hres]
    | expectedErr =>
      exfalso
      simp [callStep, admitPhase, hb, hres, onFailure] at hc
    | unexpectedErr =>
      exfalso
      simp [callStep, admitPhase, hb, hres] at hc
  · exfalso
    simp only [callStep, admitPhase, hb, hres, if_true, if_false] at hc
    simp at hc
    exact absurd (hb.symm.trans hc) (by simp)

/-- Witness for C4's amended theorem: a breaker opened by five failures
at time 0 and probed successfully at time 100 went through HalfOpen. -/
theorem open_to_closed_only_via_probe_witness :
    (admitPhase ⟨5, 60⟩ 100 (foldFailures ⟨5, 60⟩ [0, 0, 0, 0, 0] Breaker.init)).2.state =
      CBState.HalfOpen ∧
    (callStep ⟨5, 60⟩ 100 CallOutcome.ok
      (foldFailures ⟨5, 60⟩ [0, 0, 0, 0, 0] Breaker.init)).1 = CallResult.succeeded :=
  open_to_closed_only_via_probe ⟨5, 60⟩ 100 CallOutcome.ok
    (foldFailures ⟨5, 60⟩ [0, 0, 0, 0, 0] Breaker.init) (by decide) (by decide)

/-- C9 counterexample: a call admitted as a recovery probe from the
Open state whose wrapped function raises an unexpected (non-expected
category) exception leaves the breaker in HalfOpen, not in its original
Open state — so the state is not always left unchanged. -/
theorem unexpected_error_state_change_counterexample :
    (callStep ⟨5, 60⟩ 60 CallOutcome.unexpectedErr
      (foldFailures ⟨5, 60⟩ [0, 0, 0, 0, 0] Breaker.init)).1 =
      CallResult.failedUnexpected ∧
    (foldFailures ⟨5, 60⟩ [0, 0, 0, 0, 0] Breaker.init).state = CBState.Open ∧
    (callStep ⟨5, 60⟩ 60 CallOutcome.unexpectedErr
      (foldFailures ⟨5, 60⟩ [0, 0, 0, 0, 0] Breaker.init)).2.state =
      CBState.HalfOpen := by decide

/-- C9 amended: a call whose wrapped function raises an
unexpected-category exception propagates it and leaves the failure
count and last-failure time unchanged; the state is fully unchanged
whenever the call began in Closed or HalfOpen, while a call that began
in Open (admitted as a recovery probe) remains in HalfOpen. Only
expected-category failures mutate the counter. -/
theorem unexpected_error_frame (cfg : CBConfig) (now : Int) (b : Breaker)
    (h : (callStep cfg now CallOutcome.unexpectedErr b).1 =
      CallResult.failedUnexpected) :
    (callStep cfg now CallOutcome.unexpectedErr b).2.failureCount = b.failureCount ∧
    (callStep cfg now CallOutcome.unexpectedErr b).2.lastFailureTime =
      b.lastFailureTime ∧
    (b.state ≠ CBState.Open → (callStep cfg now CallOutcome.unexpectedErr b).2 = b) ∧
    (b.state = CBState.Open →
      (callStep cfg now CallOutcome.unexpectedErr b).2.state = CBState.HalfOpen) := by
  by_cases hb : b.state = CBState.Open
  · by_cases hres : shouldAttemptReset cfg now b = true
    · simp [callStep, admitPhase, hb, hres]
    · exfalso
      simp [callStep, admitPhase, hb, hres] at h
  · simp [callStep, admitPhase, hb]

/-- Witness for C9's amended theorem at a Closed breaker: an unexpected
exception at time 7 leaves the initial breaker entirely unchanged. -/
theorem unexpected_error_frame_witness :
    (callStep ⟨5, 60⟩ 7 CallOutcome.unexpectedErr Breaker.init).2.failureCount =
      Breaker.init.failureCount ∧
    (callStep ⟨5, 60⟩ 7 CallOutcome.unexpectedErr Breaker.init).2.lastFailureTime =
      Breaker.init.lastFailureTime ∧
    (Breaker.init.state ≠ CBState.Open →
      (callStep ⟨5, 60⟩ 7 CallOutcome.unexpectedErr Breaker.init).2 = Breaker.init) ∧
    (Breaker.init.state = CBState.Open →
      (callStep ⟨5, 60⟩ 7 CallOutcome.unexpectedErr Breaker.init).2.state =
        CBState.HalfOpen) :=
  unexpected_error_frame ⟨5, 60⟩ 7 Breaker.init (by decide)

/-! ## Provider router (services/ai/manager.py and services/ai/providers/) -/

/-- Members of the `AIModel` enum (providers/base.py lines 10-33). -/
inductive AIModel where
  | GPT_4O
  | GPT_4_TURBO
  | GPT_35_TURBO
  | CLAUDE_3_OPUS
  | CLAUDE_3_SONNET
  | CLAUDE_3_HAIKU
  | LLAMA_2_7B
  | LLAMA_2_13B
  | LLAMA_3_8B
  | LLAMA_3_70B
  | MISTRAL_7B
  | MIXTRAL_8X7B
  | EMBEDDING_3_SMALL
  | EMBEDDING_3_LARGE
  | EMBEDDING_ADA_002
deriving DecidableEq, Fintype, Repr

/-- Members of the `ProviderType` enum (manager.py lines 32-36). -/
inductive ProviderType where
  | openai
  | anthropic
  | local
deriving DecidableEq, Fintype, Repr

/-- Class attribute `SUPPORTED_MODELS` of the three provider classes
(openai_provider.py lines 21-28, anthropic_provider.py lines 19-23,
local_provider.py lines 30-37). -/
def SUPPORTED_MODELS : ProviderType → List AIModel
  | ProviderType.openai =>
      [AIModel.GPT_4O, AIModel.GPT_4_TURBO, AIModel.GPT_35_TURBO,
       AIModel.EMBEDDING_3_SMALL, AIModel.EMBEDDING_3_LARGE,
       AIModel.EMBEDDING_ADA_002]
  | ProviderType.anthropic =>
      [AIModel.CLAUDE_3_OPUS, AIModel.CLAUDE_3_SONNET, AIModel.CLAUDE_3_HAIKU]
  | ProviderType.local =>
      [AIModel.LLAMA_2_7B, AIModel.LLAMA_2_13B, AIModel.LLAMA_3_8B,
       AIModel.LLAMA_3_70B, AIModel.MISTRAL_7B, AIModel.MIXTRAL_8X7B]

/-- Method `supports_model` of each provider class: membership in the
class's `SUPPORTED_MODELS` set. -/
def supportsModel (p : ProviderType) (m : AIModel) : Bool :=
  decide (m ∈ SUPPORTED_MODELS p)

/-- Cost/metadata entry of a provider's `MODEL_INFO` dictionary; each
field is present (`some`) exactly when the corresponding key is present
in the Python dictionary (the cost formulas read absent keys as 0 via
`dict.get(key, 0)`). -/
structure ModelInfo where
  inputCostPer1k : Option ℚ := none
  outputCostPer1k : Option ℚ := none
  costPer1k : Option ℚ := none
  contextWindow : Option ℕ := none
deriving DecidableEq, Repr

/-- Class attribute `MODEL_INFO` of the three provider classes
(openai_provider.py lines 30-59, anthropic_provider.py lines 25-44,
local_provider.py lines 39-70); `none` when the model key is absent
(the Python `get_model_info` then returns the falsy empty dict). -/
def MODEL_INFO : ProviderType → AIModel → Option ModelInfo
  | ProviderType.openai, AIModel.GPT_4O =>
      some { inputCostPer1k := some 0.005, outputCostPer1k := some 0.015,
             contextWindow := some 128000 }
  | ProviderType.openai, AIModel.GPT_4_TURBO =>
      some { inputCostPer1k := some 0.01, outputCostPer1k := some 0.03,
             contextWindow := some 128000 }
  | ProviderType.openai, AIModel.GPT_35_TURBO =>
      some { inputCostPer1k := some 0.0005, outputCostPer1k := some 0.0015,
             contextWindow := some 16385 }
  | ProviderType.openai, AIModel.EMBEDDING_3_SMALL =>
      some { costPer1k := some 0.00002 }
  | ProviderType.openai, AIModel.EMBEDDING_3_LARGE =>
      some { costPer1k := some 0.00013 }
  | ProviderType.anthropic, AIModel.CLAUDE_3_OPUS =>
      some { inputCostPer1k := some 0.015, outputCostPer1k := some 0.075,
             contextWindow := some 200000 }
  | ProviderType.anthropic, AIModel.CLAUDE_3_SONNET =>
      some { inputCostPer1k := some 0.003, outputCostPer1k := some 0.015,
             contextWindow := some 200000 }
  | ProviderType.anthropic, AIModel.CLAUDE_3_HAIKU =>
      some { inputCostPer1k := some 0.00025, outputCostPer1k := some 0.00125,
             contextWindow := some 200000 }
  | ProviderType.local, AIModel.LLAMA_2_7B =>
      some { contextWindow := some 4096 }
  | ProviderType.local, AIModel.LLAMA_2_13B =>
      some { contextWindow := some 4096 }
  | ProviderType.local, AIModel.LLAMA_3_8B =>
      some { contextWindow := some 8192 }
  | ProviderType.local, AIModel.LLAMA_3_70B =>
      some { contextWindow := some 8192 }
  | ProviderType.local, AIModel.MISTRAL_7B =>
      some { contextWindow := some 8192 }
  | ProviderType.local, AIModel.MIXTRAL_8X7B =>
      some { contextWindow := some 32768 }
  | _, _ => none

/-- Method `get_default_model` of each provider class
(openai_provider.py line 254, anthropic_provider.py line 200,
local_provider.py line 329). -/
def defaultModel : ProviderType → AIModel
  | ProviderType.openai => AIModel.GPT_4O
  | ProviderType.anthropic => AIModel.CLAUDE_3_SONNET
  | ProviderType.local => AIModel.LLAMA_3_8B

/-- Cross-provider model equivalence `_map_model` (manager.py lines
391-418).  The local branch checks whether `LLAMA_3_70B` is in the
local provider's `SUPPORTED_MODELS`, as the source does. -/
def mapModel (m : AIModel) (p : ProviderType) : Option AIModel :=
  match p with
  | ProviderType.anthropic =>
      if m = AIModel.GPT_4O ∨ m = AIModel.GPT_4_TURBO then
        some AIModel.CLAUDE_3_OPUS
      else if m = AIModel.GPT_35_TURBO then some AIModel.CLAUDE_3_HAIKU
      else none
  | ProviderType.local =>
      if m = AIModel.GPT_4O ∨ m = AIModel.GPT_4_TURBO ∨ m = AIModel.CLAUDE_3_OPUS then
        some (if supportsModel ProviderType.local AIModel.LLAMA_3_70B then
          AIModel.LLAMA_3_70B else AIModel.LLAMA_3_8B)
      else some AIModel.LLAMA_3_8B
  | ProviderType.openai =>
      if m = AIModel.CLAUDE_3_OPUS then some AIModel.GPT_4O
      else if m = AIModel.CLAUDE_3_SONNET then some AIModel.GPT_4_TURBO
      else if m = AIModel.CLAUDE_3_HAIKU then some AIModel.GPT_35_TURBO
      else none

/-- Model-resolution step of the fallback loop of `complete` /
`complete_stream` (manager.py lines 139-147 and 223-230): a requested
model unsupported by the candidate is remapped (skip the candidate when
no mapping exists, signalled by `none`); otherwise the requested model,
or the provider's default when none was requested, is used. -/
def candidateModel (p : ProviderType) (m : Option AIModel) : Option AIModel :=
  match m with
  | some mm => if supportsModel p mm then some mm else mapModel mm p
  | none => some (defaultModel p)

/-- Response as the router sees it: an optional usage dictionary with
`prompt_tokens` and `completion_tokens` (providers/base.py lines 61-71;
missing keys read as 0 through `usage.get(key, 0)`). -/
structure Response where
  usage : Option (Nat × Nat)
deriving DecidableEq, Repr

/-- One row appended to the cost ledger by
`cost_tracker.track_usage` (manager.py lines 162-174, cost_tracker.py
lines 51-80). -/
structure LedgerEntry where
  userId : String
  provider : ProviderType
  model : AIModel
  promptTokens : Nat
  completionTokens : Nat
  cost : ℚ
deriving DecidableEq, Repr

/-- Environment of one router call: the configured providers in
registration order (`self.providers` keys), each breaker's state, the
outcome of each provider call made through its breaker, and the
caller's attribution id.  Backend calls are the only effectful
operations; their outcomes are environment parameters of the
sequential model. -/
structure RouterEnv where
  configured : List ProviderType
  breakerState : ProviderType → CBState
  callResult : ProviderType → AIModel → Except String Response
  streamResult : ProviderType → AIModel → Except String Nat
  embedResult : ProviderType → AIModel → Except String Response
  userId : Option String
  enableLocalFallback : Bool

/-- Per-completion cost `_calculate_cost` (manager.py lines 420-436):
scan the configured providers in registration order for the first one
that supports the model and has a non-empty info dict, and price the
token counts with that provider's per-1k costs; 0.0 when none matches. -/
def calculateCost : List ProviderType → AIModel → Nat → Nat → ℚ
  | [], _, _, _ => 0
  | p :: rest, m, pt, ct =>
      if supportsModel p m then
        match MODEL_INFO p m with
        | some i =>
            i.inputCostPer1k.getD 0 * ((pt : ℚ) / 1000) +
            i.outputCostPer1k.getD 0 * ((ct : ℚ) / 1000)
        | none => calculateCost rest m pt ct
      else calculateCost rest m pt ct

/-- Per-embedding cost `_calculate_embedding_cost` (manager.py lines
438-450). -/
def calculateEmbeddingCost : List ProviderType → AIModel → Nat → ℚ
  | [], _, _ => 0
  | p :: rest, m, tok =>
      if supportsModel p m then
        match MODEL_INFO p m with
        | some i => i.costPer1k.getD 0 * ((tok : ℚ) / 1000)
        | none => calculateEmbeddingCost rest m tok
      else calculateEmbeddingCost rest m tok

/-- Result of `complete`: the outcome (the aggregate error carries
`last_error`, `none` when no candidate call ever ran), the providers
whose backend call was actually invoked, in order, and the ledger rows
appended (latency/success-rate tallies are bookkeeping not reflected in
results and are not modelled). -/
structure CompleteOutcome where
  result : Except (Option String) Response
  invoked : List ProviderType
  ledger : List LedgerEntry
deriving Repr

/-- Fallback loop of `complete` (manager.py lines 125-191): skip a
candidate that is not configured, whose breaker reads "open", or that
lacks a model mapping; otherwise invoke it through its breaker;
on success append a ledger row when usage and a user id are present and
return, on failure remember the error and continue; raise the
aggregate error when candidates run out. -/
def completeLoop (env : RouterEnv) (reqModel : Option AIModel) :
    List ProviderType → Option String → CompleteOutcome
  | [], lastErr => ⟨Except.error lastErr, [], []⟩
  | p :: rest, lastErr =>
      if p ∉ env.configured then completeLoop env reqModel rest lastErr
      else if env.breakerState p = CBState.Open then
        completeLoop env reqModel rest lastErr
      else
        match candidateModel p reqModel with
        | none => completeLoop env reqModel rest lastErr
        | some mu =>
            match env.callResult p mu with
            | Except.ok resp =>
                ⟨Except.ok resp, [p],
                 match resp.usage, env.userId with
                 | some (pt, ct), some uid =>
                     [⟨uid, p, mu, pt, ct, calculateCost env.configured mu pt ct⟩]
                 | _, _ => []⟩
            | Except.error e =>
                let k := completeLoop env reqModel rest (some e)
                ⟨k.result, p :: k.invoked, k.ledger⟩

/-- Result of `complete_stream`: the token count of the completed
fragment stream on success, the invoked providers, the ledger rows. -/
structure StreamOutcome where
  result : Except (Option String) Nat
  invoked : List ProviderType
  ledger : List LedgerEntry
deriving Repr

/-- Fallback loop of `complete_stream` (manager.py lines 209-284),
whose skip/invoke/fallback structure is identical to `complete`; the
prompt-token estimate `promptTok` stands for the Python
`int(sum(len(m.content.split()) for m in messages) * 1.3)` and the
stream result carries the accumulated `token_count`.  For streaming,
the ledger row is appended whenever a user id is present (no usage
check). -/
def completeStreamLoop (env : RouterEnv) (reqModel : Option AIModel)
    (promptTok : Nat) : List ProviderType → Option String → StreamOutcome
  | [], lastErr => ⟨Except.error lastErr, [], []⟩
  | p :: rest, lastErr =>
      if p ∉ env.configured then completeStreamLoop env reqModel promptTok rest lastErr
      else if env.breakerState p = CBState.Open then
        completeStreamLoop env reqModel promptTok rest lastErr
      else
        match candidateModel p reqModel with
        | none => completeStreamLoop env reqModel promptTok rest lastErr
        | some mu =>
            match env.streamResult p mu with
            | Except.ok tok =>
                ⟨Except.ok tok, [p],
                 match env.userId with
                 | some uid =>
                     [⟨uid, p, mu, promptTok, tok,
                       calculateCost env.configured mu promptTok tok⟩]
                 | none => []⟩
            | Except.error e =>
                let k := completeStreamLoop env reqModel promptTok rest (some e)
                ⟨k.result, p :: k.invoked, k.ledger⟩

/-- Candidate ordering `_get_provider_order` for the default
`SEQUENTIAL` strategy (manager.py lines 346-360): the configured
providers, filtered by the preference list when given, with the default
provider moved to the front when present. -/
def getProviderOrder (configured : List ProviderType)
    (preferred : Option (List ProviderType)) (dflt : ProviderType) :
    List ProviderType :=
  let avail :=
    match preferred with
    | some prefs => prefs.filter (fun p => decide (p ∈ configured))
    | none => configured
  if dflt ∈ avail then dflt :: avail.erase dflt else avail

/-- Public operation `complete` (manager.py lines 109-191) under the
default sequential strategy. -/
def complete (env : RouterEnv) (reqModel : Option AIModel)
    (preferred : Option (List ProviderType)) (dflt : ProviderType) :
    CompleteOutcome :=
  completeLoop env reqModel (getProviderOrder env.configured preferred dflt) none

/-- Fixed candidate list of `embed` (manager.py lines 294-298): OpenAI,
then the local provider when the local fallback is enabled. -/
def embedCandidates (enableLocalFallback : Bool) : List ProviderType :=
  ProviderType.openai :: (if enableLocalFallback then [ProviderType.local] else [])

/-- Loop body of `embed` (manager.py lines 300-338): skip unconfigured
candidates, pick the embedding model (the requested model or
EMBEDDING_3_SMALL for OpenAI, the provider default otherwise), and call
`provider.embed` directly — no circuit breaker is consulted anywhere on
this path.  On success a ledger row is appended when usage and a user
id are present. -/
def embedLoop (env : RouterEnv) (reqModel : Option AIModel) :
    List ProviderType → Option String → CompleteOutcome
  | [], lastErr => ⟨Except.error lastErr, [], []⟩
  | p :: rest, lastErr =>
      if p ∉ env.configured then embedLoop env reqModel rest lastErr
      else
        let mu :=
          if p = ProviderType.openai then reqModel.getD AIModel.EMBEDDING_3_SMALL
          else defaultModel p
        match env.embedResult p mu with
        | Except.ok resp =>
            ⟨Except.ok resp, [p],
             match resp.usage, env.userId with
             | some (pt, _), some uid =>
                 [⟨uid, p, mu, pt, 0, calculateEmbeddingCost env.configured mu pt⟩]
             | _, _ => []⟩
        | Except.error e =>
            let k := embedLoop env reqModel rest (some e)
            ⟨k.result, p :: k.invoked, k.ledger⟩

/-- Public operation `embed` (manager.py lines 286-338). -/
def embed (env : RouterEnv) (reqModel : Option AIModel) : CompleteOutcome :=
  embedLoop env reqModel (embedCandidates env.enableLocalFallback) none

/-- One candidate of the `complete` fallback loop ends in a successful
response exactly when it is configured, its breaker does not read
"open", a model mapping exists, and the breaker-wrapped call returns
successfully. -/
def succeedsAt (env : RouterEnv) (reqModel : Option AIModel)
    (p : ProviderType) : Bool :=
  decide (p ∈ env.configured) && !(decide (env.breakerState p = CBState.Open)) &&
    (match candidateModel p reqModel with
     | none => false
     | some mu => (env.callResult p mu).toBool)

/-- Accumulated `last_error` over the fallback loop in the case where
no candidate succeeds: the error of the last candidate whose call was
actually attempted and failed, or the incoming accumulator when no
candidate was ever called. -/
def lastErrorAcc (env : RouterEnv) (reqModel : Option AIModel) :
    List ProviderType → Option String → Option String
  | [], acc => acc
  | p :: rest, acc =>
      lastErrorAcc env reqModel rest
        (if p ∈ env.configured ∧ ¬env.breakerState p = CBState.Open then
          match candidateModel p reqModel with
          | none => acc
          | some mu =>
              match env.callResult p mu with
              | Except.ok _ => acc
              | Except.error e => some e
        else acc)

/-- Exhaustion behaviour of the fallback loop, for any candidate
order: the loop ends in the aggregate error exactly when no candidate
succeeds, and the aggregate error then carries the error of the last
candidate that was actually called and failed. -/
theorem completeLoop_exhaustion (env : RouterEnv) (reqModel : Option AIModel) :
    ∀ (order : List ProviderType) (lastErr : Option String),
    ((completeLoop env reqModel order lastErr).result.isOk = false ↔
      ∀ p ∈ order, succeedsAt env reqModel p = false) ∧
    ((∀ p ∈ order, succeedsAt env reqModel p = false) →
      (completeLoop env reqModel order lastErr).result =
        Except.error (lastErrorAcc env reqModel order lastErr)) := by
  intro order
  induction order with
  | nil =>
    intro lastErr
    constructor
    · simp [completeLoop, Except.isOk, Except.toBool]
    · intro _
      simp [completeLoop, lastErrorAcc]
  | cons p rest ih =>
    intro lastErr
    by_cases hconf : p ∈ env.configured
    · by_cases hopen : env.breakerState p = CBState.Open
      · have hs : succeedsAt env reqModel p = false := by
          simp [succeedsAt, hopen]
        have hloop : completeLoop env reqModel (p :: rest) lastErr =
            completeLoop env reqModel rest lastErr := by
          simp [completeLoop, hconf, hopen]
        have hacc : lastErrorAcc env reqModel (p :: rest) lastErr =
            lastErrorAcc env reqModel rest lastErr := by
          simp [lastErrorAcc, hconf, hopen]
        rw [hloop, hacc]
        obtain ⟨ih1, ih2⟩ := ih lastErr
        refine ⟨?_, ?_⟩
        · rw [ih1]
          simp [hs]
        · intro h
          exact ih2 (fun q hq => h q (List.mem_cons_of_mem _ hq))
      · cases hcm : candidateModel p reqModel with
        | none =>
          have hs : succeedsAt env reqModel p = false := by
            simp [succeedsAt, hcm]
          have hloop : completeLoop env reqModel (p :: rest) lastErr =
              completeLoop env reqModel rest lastErr := by
            simp [completeLoop, hconf, hopen, hcm]
          have hacc : lastErrorAcc env reqModel (p :: rest) lastErr =
              lastErrorAcc env reqModel rest lastErr := by
            simp [lastErrorAcc, hconf, hopen, hcm]
          rw [hloop, hacc]
          obtain ⟨ih1, ih2⟩ := ih lastErr
          refine ⟨?_, ?_⟩
          · rw [ih1]
            simp [hs]
          · intro h
            exact ih2 (fun q hq => h q (List.mem_cons_of_mem _ hq))
        | some mu =>
          cases hcall : env.callResult p mu with
          | ok resp =>
            have hs : succeedsAt env reqModel p = true := by
              simp [succeedsAt, hconf, hopen, hcm, hcall, Except.toBool]
            have hloop : (completeLoop env reqModel (p :: rest) lastErr).result =
                Except.ok resp := by
              simp [completeLoop, hconf, hopen, hcm, hcall]
            refine ⟨?_, ?_⟩
            · rw [hloop]
              simp only [Except.isOk]
              constructor
              · intro h
                simp [Except.toBool] at h
              · intro h
                have := h p (List.mem_cons_self _ _)
                rw [hs] at this
                simp at this
            · intro h
              have := h p (List.mem_cons_self _ _)
              rw [hs] at this
              simp at this
          | error e =>
            have hs : succeedsAt env reqModel p = false := by
              simp [succeedsAt, hcm, hcall, Except.toBool]
            have hloop : (completeLoop env reqModel (p :: rest) lastErr).result =
                (completeLoop env reqModel rest (some e)).result := by
              simp [completeLoop, hconf, hopen, hcm, hcall]
            have hacc : lastErrorAcc env reqModel (p :: rest) lastErr =
                lastErrorAcc env reqModel rest (some e) := by
              simp [lastErrorAcc, hconf, hopen, hcm, hcall]
            rw [hloop, hacc]
            obtain ⟨ih1, ih2⟩ := ih (some e)
            refine ⟨?_, ?_⟩
            · rw [ih1]
              simp [hs]
            · intro h
              exact ih2 (fun q hq => h q (List.mem_cons_of_mem _ hq))
    · have hs : succeedsAt env reqModel p = false := by
        simp [succeedsAt, hconf]
      have hloop : completeLoop env reqModel (p :: rest) lastErr =
          completeLoop env reqModel rest lastErr := by
        simp [completeLoop, hconf]
      have hacc : lastErrorAcc env reqModel (p :: rest) lastErr =
          lastErrorAcc env reqModel rest lastErr := by
        simp [lastErrorAcc, hconf]
      rw [hloop, hacc]
      obtain ⟨ih1, ih2⟩ := ih lastErr
      refine ⟨?_, ?_⟩
      · rw [ih1]
        simp [hs]
      · intro h
        exact ih2 (fun q hq => h q (List.mem_cons_of_mem _ hq))

/-- C2: `AIManager.complete` raises the aggregate "All providers
failed" error if and only if every candidate in the
preference-filtered, configured provider order was skipped (not
configured, breaker open, or no model mapping) or had its call fail;
when raised, the aggregate error carries the error of the last
candidate actually called and failed (`last_error`, `none` when no
candidate was ever called). -/
theorem all_providers_failed_iff (env : RouterEnv) (reqModel : Option AIModel)
    (preferred : Option (List ProviderType)) (dflt : ProviderType) :
    ((complete env reqModel preferred dflt).result.isOk = false ↔
      ∀ p ∈ getProviderOrder env.configured preferred dflt,
        succeedsAt env reqModel p = false) ∧
    ((∀ p ∈ getProviderOrder env.configured preferred dflt,
        succeedsAt env reqModel p = false) →
      (complete env reqModel preferred dflt).result =
        Except.error (lastErrorAcc env reqModel
          (getProviderOrder env.configured preferred dflt) none)) :=
  completeLoop_exhaustion env reqModel
    (getProviderOrder env.configured preferred dflt) none

/-- Concrete router environment in which both configured cloud
providers are healthy but every backend call fails. -/
def envAllFail : RouterEnv :=
  { configured := [ProviderType.openai, ProviderType.anthropic]
    breakerState := fun _ => CBState.Closed
    callResult := fun _ _ => Except.error "boom"
    streamResult := fun _ _ => Except.error "boom"
    embedResult := fun _ _ => Except.error "boom"
    userId := none
    enableLocalFallback := true }

/-- Witness for C2: with two configured providers whose calls both
fail, `complete` returns the aggregate error carrying the last
failure. -/
theorem all_providers_failed_iff_witness :
    (complete envAllFail none none ProviderType.openai).result =
      Except.error (lastErrorAcc envAllFail none
        (getProviderOrder envAllFail.configured none ProviderType.openai) none) :=
  (all_providers_failed_iff envAllFail none none ProviderType.openai).2 (by decide)

/-- Completion cost priced with one specific provider's own
`MODEL_INFO` table (reading absent cost keys as 0, and 0 when the model
has no entry at all). -/
def costOfServing (p : ProviderType) (m : AIModel) (pt ct : Nat) : ℚ :=
  match MODEL_INFO p m with
  | some i =>
      i.inputCostPer1k.getD 0 * ((pt : ℚ) / 1000) +
      i.outputCostPer1k.getD 0 * ((ct : ℚ) / 1000)
  | none => 0

/-- The three providers' `SUPPORTED_MODELS` sets are pairwise
disjoint: a model is supported by at most one provider class. -/
theorem supports_unique : ∀ (p q : ProviderType) (m : AIModel),
    supportsModel p m = true → supportsModel q m = true → p = q := by decide

/-- The model the fallback loop resolves for a candidate is always
supported by that candidate (requested-and-supported, mapped, or the
provider default). -/
theorem candidateModel_supports : ∀ (p : ProviderType) (m : Option AIModel)
    (mu : AIModel), candidateModel p m = some mu → supportsModel p mu = true := by
  decide

/-- The `_calculate_cost` scan yields 0 when every supporting provider
in the list lacks a `MODEL_INFO` entry for the model. -/
theorem calculateCost_zero (m : AIModel) (pt ct : Nat) :
    ∀ (l : List ProviderType),
    (∀ q ∈ l, supportsModel q m = true → MODEL_INFO q m = none) →
    calculateCost l m pt ct = 0 := by
  intro l
  induction l with
  | nil => intro _; rfl
  | cons q rest ih =>
    intro h
    by_cases hq : supportsModel q m = true
    · have hinfo : MODEL_INFO q m = none := h q (List.mem_cons_self _ _) hq
      simp only [calculateCost, hq, if_true, hinfo]
      exact ih (fun q' hq' => h q' (List.mem_cons_of_mem _ hq'))
    · simp only [calculateCost, hq, if_false]
      exact ih (fun q' hq' => h q' (List.mem_cons_of_mem _ hq'))

/-- Because the supported-model sets are disjoint, the `_calculate_cost`
scan over the configured providers prices a model supported by `p`
exactly with `p`'s own cost profile, whenever `p` is configured. -/
theorem calculateCost_serving (p : ProviderType) (m : AIModel) (pt ct : Nat)
    (hp : supportsModel p m = true) :
    ∀ (l : List ProviderType), p ∈ l →
    calculateCost l m pt ct = costOfServing p m pt ct := by
  intro l
  induction l with
  | nil => intro h; cases h
  | cons q rest ih =>
    intro hmem
    by_cases hq : supportsModel q m = true
    · have heq : q = p := supports_unique q p m hq hp
      subst heq
      cases hinfo : MODEL_INFO q m with
      | some i => simp [calculateCost, hq, hinfo, costOfServing]
      | none =>
        simp only [calculateCost, hq, if_true, hinfo, costOfServing]
        exact calculateCost_zero m pt ct rest
          (fun q' _ hq' => (supports_unique q' q m hq' hq) ▸ hinfo)
    · have hne : p ≠ q := fun h => hq (h ▸ hp)
      have hmem' : p ∈ rest := by
        cases hmem with
        | head => exact absurd rfl hne
        | tail _ h => exact h
      simp only [calculateCost, hq, if_false]
      exact ih hmem'

/-- C7: every row the fallback loop of `complete` appends to the usage
ledger is priced from the cost profile (`MODEL_INFO`) of the provider
that actually served the request, applied to the model actually used
(the resolved candidate model, never the originally requested one). -/
theorem cost_from_serving_backend (env : RouterEnv) (reqModel : Option AIModel) :
    ∀ (order : List ProviderType) (lastErr : Option String) (entry : LedgerEntry),
    entry ∈ (completeLoop env reqModel order lastErr).ledger →
    entry.provider ∈ env.configured ∧
    candidateModel entry.provider reqModel = some entry.model ∧
    entry.cost = costOfServing entry.provider entry.model
      entry.promptTokens entry.completionTokens := by
  intro order
  induction order with
  | nil =>
    intro lastErr entry h
    simp [completeLoop] at h
  | cons p rest ih =>
    intro lastErr entry h
    by_cases hconf : p ∈ env.configured
    · by_cases hopen : env.breakerState p = CBState.Open
      · rw [show completeLoop env reqModel (p :: rest) lastErr =
            completeLoop env reqModel rest lastErr by
          simp [completeLoop, hconf, hopen]] at h
        exact ih lastErr entry h
      · cases hcm : candidateModel p reqModel with
        | none =>
          rw [show completeLoop env reqModel (p :: rest) lastErr =
              completeLoop env reqModel rest lastErr by
            simp [completeLoop, hconf, hopen, hcm]] at h
          exact ih lastErr entry h
        | some mu =>
          cases hcall : env.callResult p mu with
          | ok resp =>
            have hled : (completeLoop env reqModel (p :: rest) lastErr).ledger =
                (match resp.usage, env.userId with
                 | some (pt, ct), some uid =>
                     [⟨uid, p, mu, pt, ct, calculateCost env.configured mu pt ct⟩]
                 | _, _ => []) := by
              simp [completeLoop, hconf, hopen, hcm, hcall]
            rw [hled] at h
            cases husage : resp.usage with
            | none => rw [husage] at h; simp at h
            | some ptct =>
              cases huid : env.userId with
              | none => rw [husage, huid] at h; simp at h
              | some uid =>
                rw [husage, huid] at h
                obtain ⟨pt, ct⟩ := ptct
                simp only [List.mem_singleton] at h
                subst h
                refine ⟨hconf, hcm, ?_⟩
                exact calculateCost_serving p mu pt ct
                  (candidateModel_supports p reqModel mu hcm)
                  env.configured hconf
          | error e =>
            rw [show (completeLoop env reqModel (p :: rest) lastErr).ledger =
                (completeLoop env reqModel rest (some e)).ledger by
              simp [completeLoop, hconf, hopen, hcm, hcall]] at h
            exact ih (some e) entry h
    · rw [show completeLoop env reqModel (p :: rest) lastErr =
          completeLoop env reqModel rest lastErr by
        simp [completeLoop, hconf]] at h
      exact ih lastErr entry h

/-- Concrete router environment with one configured provider
(Anthropic) whose call succeeds reporting 1000 prompt and 2000
completion tokens, with a user id for cost attribution. -/
def envServe : RouterEnv :=
  { configured := [ProviderType.anthropic]
    breakerState := fun _ => CBState.Closed
    callResult := fun _ _ => Except.ok ⟨some (1000, 2000)⟩
    streamResult := fun _ _ => Except.ok 2000
    embedResult := fun _ _ => Except.ok ⟨some (1000, 2000)⟩
    userId := some "u"
    enableLocalFallback := true }

/-- Witness for C7: the ledger row of a completion served by Anthropic
with CLAUDE_3_SONNET is priced from Anthropic's own cost table. -/
theorem cost_from_serving_backend_witness :
    (⟨"u", ProviderType.anthropic, AIModel.CLAUDE_3_SONNET, 1000, 2000,
        calculateCost envServe.configured AIModel.CLAUDE_3_SONNET 1000 2000⟩ :
      LedgerEntry).provider ∈ envServe.configured ∧
    candidateModel ProviderType.anthropic (some AIModel.CLAUDE_3_SONNET) =
      some AIModel.CLAUDE_3_SONNET ∧
    calculateCost envServe.configured AIModel.CLAUDE_3_SONNET 1000 2000 =
      costOfServing ProviderType.anthropic AIModel.CLAUDE_3_SONNET 1000 2000 :=
  cost_from_serving_backend envServe (some AIModel.CLAUDE_3_SONNET)
    [ProviderType.anthropic] none
    ⟨"u", ProviderType.anthropic, AIModel.CLAUDE_3_SONNET, 1000, 2000,
      calculateCost envServe.configured AIModel.CLAUDE_3_SONNET 1000 2000⟩
    (List.Mem.head _)

/-- Concrete router environment whose only configured provider
(OpenAI) has an Open circuit breaker while its embed endpoint works. -/
def envOpenBreaker : RouterEnv :=
  { configured := [ProviderType.openai]
    breakerState := fun _ => CBState.Open
    callResult := fun _ _ => Except.error "down"
    streamResult := fun _ _ => Except.error "down"
    embedResult := fun _ _ => Except.ok ⟨none⟩
    userId := none
    enableLocalFallback := true }

/-- C8 counterexample: `embed` invokes the OpenAI backend even though
its circuit breaker is Open — the embedding path never consults any
breaker, refuting "a backend whose breaker is Open is never invoked"
for the `embed` call path. -/
theorem embed_invokes_open_breaker_counterexample :
    envOpenBreaker.breakerState ProviderType.openai = CBState.Open ∧
    (embed envOpenBreaker none).invoked = [ProviderType.openai] ∧
    (embed envOpenBreaker none).result.isOk = true := by decide

/-- C8 amended: `complete` and `complete_stream` never invoke a
backend whose breaker reads Open (every invocation goes through the
serving backend's breaker after the open-state skip); `embed`, by
contrast, bypasses the breakers entirely — its behaviour is invariant
under arbitrary changes to the breaker states. -/
theorem breaker_gating_amended :
    (∀ (env : RouterEnv) (reqModel : Option AIModel)
       (order : List ProviderType) (lastErr : Option String) (p : ProviderType),
       p ∈ (completeLoop env reqModel order lastErr).invoked →
       env.breakerState p ≠ CBState.Open) ∧
    (∀ (env : RouterEnv) (reqModel : Option AIModel) (promptTok : Nat)
       (order : List ProviderType) (lastErr : Option String) (p : ProviderType),
       p ∈ (completeStreamLoop env reqModel promptTok order lastErr).invoked →
       env.breakerState p ≠ CBState.Open) ∧
    (∀ (env : RouterEnv) (bs : ProviderType → CBState)
       (reqModel : Option AIModel) (order : List ProviderType)
       (lastErr : Option String),
       embedLoop { env with breakerState := bs } reqModel order lastErr =
         embedLoop env reqModel order lastErr) := by
  refine ⟨?_, ?_, ?_⟩
  · intro env reqModel order
    induction order with
    | nil =>
      intro lastErr p h
      simp [completeLoop] at h
    | cons q rest ih =>
      intro lastErr p h
      by_cases hconf : q ∈ env.configured
      · by_cases hopen : env.breakerState q = CBState.Open
        · rw [show completeLoop env reqModel (q :: rest) lastErr =
              completeLoop env reqModel rest lastErr by
            simp [completeLoop, hconf, hopen]] at h
          exact ih lastErr p h
        · cases hcm : candidateModel q reqModel with
          | none =>
            rw [show completeLoop env reqModel (q :: rest) lastErr =
                completeLoop env reqModel rest lastErr by
              simp [completeLoop, hconf, hopen, hcm]] at h
            exact ih lastErr p h
          | some mu =>
            cases hcall : env.callResult q mu with
            | ok resp =>
              have hinv : (completeLoop env reqModel (q :: rest) lastErr).invoked =
                  [q] := by
                simp [completeLoop, hconf, hopen, hcm, hcall]
              rw [hinv] at h
              simp only [List.mem_singleton] at h
              subst h
              exact hopen
            | error e =>
              have hinv : (completeLoop env reqModel (q :: rest) lastErr).invoked =
                  q :: (completeLoop env reqModel rest (some e)).invoked := by
                simp [completeLoop, hconf, hopen, hcm, hcall]
              rw [hinv] at h
              cases h with
              | head => exact hopen
              | tail _ h => exact ih (some e) p h
      · rw [show completeLoop env reqModel (q :: rest) lastErr =
            completeLoop env reqModel rest lastErr by
          simp [completeLoop, hconf]] at h
        exact ih lastErr p h
  · intro env reqModel promptTok order
    induction order with
    | nil =>
      intro lastErr p h
      simp [completeStreamLoop] at h
    | cons q rest ih =>
      intro lastErr p h
      by_cases hconf : q ∈ env.configured
      · by_cases hopen : env.breakerState q = CBState.Open
        · rw [show completeStreamLoop env reqModel promptTok (q :: rest) lastErr =
              completeStreamLoop env reqModel promptTok rest lastErr by
            simp [completeStreamLoop, hconf, hopen]] at h
          exact ih lastErr p h
        · cases hcm : candidateModel q reqModel with
          | none =>
            rw [show completeStreamLoop env reqModel promptTok (q :: rest) lastErr =
                completeStreamLoop env reqModel promptTok rest lastErr by
              simp [completeStreamLoop, hconf, hopen, hcm]] at h
            exact ih lastErr p h
          | some mu =>
            cases hcall : env.streamResult q mu with
            | ok tok =>
              have hinv : (completeStreamLoop env reqModel promptTok
                  (q :: rest) lastErr).invoked = [q] := by
                simp [completeStreamLoop, hconf, hopen, hcm, hcall]
              rw [hinv] at h
              simp only [List.mem_singleton] at h
              subst h
              exact hopen
            | error e =>
              have hinv : (completeStreamLoop env reqModel promptTok
                  (q :: rest) lastErr).invoked =
                  q :: (completeStreamLoop env reqModel promptTok rest
                    (some e)).invoked := by
                simp [completeStreamLoop, hconf, hopen, hcm, hcall]
              rw [hinv] at h
              cases h with
              | head => exact hopen
              | tail _ h => exact ih (some e) p h
      · rw [show completeStreamLoop env reqModel promptTok (q :: rest) lastErr =
            completeStreamLoop env reqModel promptTok rest lastErr by
          simp [completeStreamLoop, hconf]] at h
        exact ih lastErr p h
  · intro env bs reqModel order
    induction order with
    | nil => intro lastErr; rfl
    | cons q rest ih =>
      intro lastErr
      simp only [embedLoop]
      by_cases hconf : q ∈ env.configured
      · simp only [hconf, not_true, if_false, ih]
      · simp only [hconf, not_false_iff, if_true, ih]

/-- Witness for C8's amended theorem: in a healthy one-provider
environment, the invoked provider's breaker is not Open, and flipping
every breaker to Open leaves the embedding path's behaviour
unchanged. -/
theorem breaker_gating_amended_witness :
    envServe.breakerState ProviderType.anthropic ≠ CBState.Open ∧
    embedLoop { envServe with breakerState := fun _ => CBState.Open } none
        [ProviderType.openai] none =
      embedLoop envServe none [ProviderType.openai] none :=
  ⟨breaker_gating_amended.1 envServe (some AIModel.CLAUDE_3_SONNET)
      [ProviderType.anthropic] none ProviderType.anthropic (by decide),
   breaker_gating_amended.2.2 envServe (fun _ => CBState.Open) none
      [ProviderType.openai] none⟩

/-- C10 counterexample: GPT_35_TURBO is not supported by the local
provider and LLAMA_3_70B is in the local provider's supported set,
yet `_map_model` maps GPT_35_TURBO to LLAMA_3_8B, not LLAMA_3_70B —
the "LLAMA_3_70B when that is in the local provider's supported set"
description only applies to the three top-tier models. -/
theorem map_model_local_counterexample :
    supportsModel ProviderType.local AIModel.LLAMA_3_70B = true ∧
    supportsModel ProviderType.local AIModel.GPT_35_TURBO = false ∧
    mapModel AIModel.GPT_35_TURBO ProviderType.local =
      some AIModel.LLAMA_3_8B := by decide

/-- C10 amended: mapping to the local backend is total — GPT_4O,
GPT_4_TURBO and CLAUDE_3_OPUS map to LLAMA_3_70B (present in the local
supported set; LLAMA_3_8B would be chosen were it absent), every other
model maps to LLAMA_3_8B, and the result is never `none`, so a
configured local candidate is never skipped for lack of a model
mapping; whereas for the cloud backends only the enumerated
equivalences map and every other model yields `none`. -/
theorem map_model_totality_amended :
    (∀ m : AIModel, supportsModel ProviderType.local m = false →
      ((m = AIModel.GPT_4O ∨ m = AIModel.GPT_4_TURBO ∨ m = AIModel.CLAUDE_3_OPUS) →
        mapModel m ProviderType.local = some AIModel.LLAMA_3_70B) ∧
      (¬(m = AIModel.GPT_4O ∨ m = AIModel.GPT_4_TURBO ∨ m = AIModel.CLAUDE_3_OPUS) →
        mapModel m ProviderType.local = some AIModel.LLAMA_3_8B) ∧
      (mapModel m ProviderType.local).isSome = true) ∧
    (∀ m : Option AIModel, (candidateModel ProviderType.local m).isSome = true) ∧
    (∀ m : AIModel, mapModel m ProviderType.anthropic =
      (if m = AIModel.GPT_4O ∨ m = AIModel.GPT_4_TURBO then
        some AIModel.CLAUDE_3_OPUS
      else if m = AIModel.GPT_35_TURBO then some AIModel.CLAUDE_3_HAIKU
      else none)) ∧
    (∀ m : AIModel, mapModel m ProviderType.openai =
      (if m = AIModel.CLAUDE_3_OPUS then some AIModel.GPT_4O
      else if m = AIModel.CLAUDE_3_SONNET then some AIModel.GPT_4_TURBO
      else if m = AIModel.CLAUDE_3_HAIKU then some AIModel.GPT_35_TURBO
      else none)) := by
  refine ⟨?_, ?_, ?_, ?_⟩ <;> decide

/-- Witness for C10's amended theorem: GPT_4O maps to LLAMA_3_70B on
the local backend, CLAUDE_3_SONNET maps to LLAMA_3_8B, and a requested
GPT_4O is never left unmapped for the local candidate. -/
theorem map_model_totality_amended_witness :
    mapModel AIModel.GPT_4O ProviderType.local = some AIModel.LLAMA_3_70B ∧
    mapModel AIModel.CLAUDE_3_SONNET ProviderType.local =
      some AIModel.LLAMA_3_8B ∧
    (candidateModel ProviderType.local (some AIModel.GPT_4O)).isSome = true :=
  ⟨(map_model_totality_amended.1 AIModel.GPT_4O (by decide)).1 (by decide),
   (map_model_totality_amended.1 AIModel.CLAUDE_3_SONNET (by decide)).2.1 (by decide),
   map_model_totality_amended.2.1 (some AIModel.GPT_4O)⟩

/-! ## Batch scheduler (services/ai/batch_processor.py) -/

/-- Members of the `BatchStrategy` enum (batch_processor.py lines
21-27). -/
inductive BatchStrategy where
  | immediate
  | timeBased
  | sizeBased
  | costOptimized
  | hybrid
deriving DecidableEq, Repr

/-- Members of the `Priority` enum (lines 30-35). -/
inductive Priority where
  | LOW
  | NORMAL
  | HIGH
  | URGENT
deriving DecidableEq, Repr

/-- Numeric `.value` of each `Priority` member (lines 30-35). -/
def Priority.value : Priority → Nat
  | Priority.LOW => 1
  | Priority.NORMAL => 2
  | Priority.HIGH => 3
  | Priority.URGENT => 4

/-- Content of a request's `data['texts']` entry, which embedding
processing normalises: a bare string is treated as a one-element list
(lines 413-415). -/
inductive TextsField where
  | single (s : String)
  | many (l : List String)
deriving DecidableEq, Repr

/-- Normalisation of the texts field (lines 413-415). -/
def normTexts : TextsField → List String
  | TextsField.single s => [s]
  | TextsField.many l => l

/-- Fields of the `BatchRequest` dataclass (lines 38-49) read by the
modelled paths: the generated id, the request-kind tag, the priority,
the enqueue timestamp, the optional deadline, the embedding texts
carried in `data`, and whether a completion callback is attached. -/
structure BatchRequest where
  id : String
  requestType : String
  priority : Priority
  createdAt : ℚ
  deadline : Option ℚ
  texts : TextsField
  hasCallback : Bool
deriving DecidableEq, Repr

/-- The `BatchResult` dataclass (lines 52-62), with the `result`
payload type abstracted (`Any` in the source). -/
structure BatchResult (R : Type) where
  requestId : String
  success : Bool
  result : Option R := none
  error : Option String := none
  processingTime : ℚ := 0
  tokensUsed : Nat := 0
  costEstimate : ℚ := 0
deriving DecidableEq, Repr

/-- The `BatchConfig` dataclass (lines 65-76) with its defaults. -/
structure BatchConfig where
  strategy : BatchStrategy := BatchStrategy.hybrid
  maxBatchSize : Nat := 10
  maxWaitTime : ℚ := 5
  minBatchSize : Nat := 2
  priorityBoostFactor : ℚ := 2
  costThreshold : ℚ := 0.01
  enableDynamicBatching : Bool := true
  maxConcurrentBatches : Nat := 3
deriving DecidableEq, Repr

/-- The default `BatchConfig()` (lines 65-76). -/
def defaultBatchConfig : BatchConfig := {}

/-- Admission decision `_should_create_batch` (lines 221-287) for the
(kind, priority) queue whose items are `queue`, evaluated at time
`now` with `activeBatches` batches currently running.  `estimatedCost`
stands for the value `_estimate_batch_cost(queue)` returns, consulted
only by the COST_OPTIMIZED strategy. -/
def shouldCreateBatch (cfg : BatchConfig) (activeBatches : Nat)
    (priority : Priority) (queue : List BatchRequest) (now : ℚ)
    (estimatedCost : ℚ) : Bool :=
  match queue with
  | [] => false
  | oldest :: _ =>
      if cfg.maxConcurrentBatches ≤ activeBatches then false
      else
        let batchSize := queue.length
        let waitTime := now - oldest.createdAt
        match cfg.strategy with
        | BatchStrategy.immediate => decide (0 < batchSize)
        | BatchStrategy.sizeBased => decide (cfg.maxBatchSize ≤ batchSize)
        | BatchStrategy.timeBased => decide (cfg.maxWaitTime ≤ waitTime)
        | BatchStrategy.costOptimized => decide (cfg.costThreshold ≤ estimatedCost)
        | BatchStrategy.hybrid =>
            let priorityFactor := (priority.value : ℚ) * cfg.priorityBoostFactor
            let sizeFactor := min ((batchSize : ℚ) / (cfg.maxBatchSize : ℚ)) 1
            let timeFactor := min (waitTime / cfg.maxWaitTime) 1
            let urgencyFactor : ℚ :=
              match oldest.deadline with
              | none => 0
              | some d =>
                  let timeToDeadline := d - now
                  if 0 < timeToDeadline then max 0 (1 - timeToDeadline / 60)
                  else 0
            let decisionScore :=
              priorityFactor * 0.3 + sizeFactor * 0.3 +
              timeFactor * 0.3 + urgencyFactor * 0.1
            decide (1 ≤ decisionScore)


/-- Concrete LOW-priority batch request enqueued at time 0 with no
deadline. -/
def lowReq : BatchRequest :=
  ⟨"r1", "embedding", Priority.LOW, 0, none, TextsField.many ["t"], true⟩

/-- Concrete NORMAL-priority batch request enqueued at time 0 with no
deadline. -/
def normalReq : BatchRequest :=
  ⟨"r2", "completion", Priority.NORMAL, 0, none, TextsField.many [], true⟩

/-- C3 counterexample: under the Hybrid strategy with the default
configuration, a LOW-priority queue holding one deadline-free item
whose oldest entry has waited exactly `maxWaitTime` (5s), with no
active batches, is NOT admitted: the decision score is
1·2·0.3 + 0.1·0.3 + 1·0.3 = 0.93 < 1.0. -/
theorem hybrid_low_priority_not_admitted_counterexample :
    (0 : Nat) < defaultBatchConfig.maxConcurrentBatches ∧
    defaultBatchConfig.maxWaitTime ≤ (5 : ℚ) - lowReq.createdAt ∧
    shouldCreateBatch defaultBatchConfig 0 Priority.LOW [lowReq] 5 0 = false := by
  refine ⟨by decide, by norm_num [defaultBatchConfig, lowReq], ?_⟩
  simp only [shouldCreateBatch, defaultBatchConfig, lowReq, Priority.value]
  norm_num [min_def]

/-- C3 amended: under the Hybrid strategy with the default
configuration, when fewer than `maxConcurrentBatches` batches are
active and the oldest item of a non-empty queue has waited at least
`maxWaitTime`, the queue is admitted on the next tick for every
priority except LOW; a LOW-priority queue whose oldest item has no
deadline is admitted exactly when it holds at least 4 items. -/
theorem hybrid_admission_amended (active : Nat) (priority : Priority)
    (oldest : BatchRequest) (restq : List BatchRequest) (now est : ℚ)
    (hactive : active < defaultBatchConfig.maxConcurrentBatches)
    (hwait : defaultBatchConfig.maxWaitTime ≤ now - oldest.createdAt) :
    (priority ≠ Priority.LOW →
      shouldCreateBatch defaultBatchConfig active priority (oldest :: restq) now est = true) ∧
    (priority = Priority.LOW → oldest.deadline = none →
      (shouldCreateBatch defaultBatchConfig active priority (oldest :: restq) now est = true ↔
        4 ≤ (oldest :: restq).length)) := by
  have hw5 : (5 : ℚ) ≤ now - oldest.createdAt := hwait
  have hmc : ¬ (defaultBatchConfig.maxConcurrentBatches ≤ active) := by
    simp only [defaultBatchConfig] at hactive ⊢
    omega
  have hstrat : defaultBatchConfig.strategy = BatchStrategy.hybrid := rfl
  have emws : defaultBatchConfig.maxWaitTime = (5 : ℚ) := rfl
  have embs : defaultBatchConfig.maxBatchSize = (10 : Nat) := rfl
  have ebf : defaultBatchConfig.priorityBoostFactor = (2 : ℚ) := rfl
  have e3 : (0.3 : ℚ) = 3 / 10 := by norm_num
  have e1 : (0.1 : ℚ) = 1 / 10 := by norm_num
  have htf : (now - oldest.createdAt) / 5 ⊓ 1 = 1 :=
    min_eq_right ((le_div_iff (by norm_num)).mpr (by linarith only [hw5]))
  constructor
  · intro hp
    simp only [shouldCreateBatch, hmc, if_false, hstrat, emws, embs, ebf,
      Nat.cast_ofNat]
    rw [decide_eq_true_eq, htf]
    simp only [e3, e1]
    have hpv : (2 : ℚ) ≤ (priority.value : ℚ) := by
      cases priority with
      | LOW => exact absurd rfl hp
      | NORMAL => norm_num [Priority.value]
      | HIGH => norm_num [Priority.value]
      | URGENT => norm_num [Priority.value]
    have hn0 : (0 : ℚ) ≤ ((oldest :: restq).length : ℚ) := by positivity
    cases hD : oldest.deadline with
    | none =>
      simp only [hD]
      rcases le_total (((oldest :: restq).length : ℚ) / 10) 1 with hc | hc
      · rw [min_eq_left hc]
        linarith only [hpv, hn0]
      · rw [min_eq_right hc]
        linarith only [hpv]
    | some d =>
      simp only [hD]
      by_cases hpos : 0 < d - now
      · simp only [hpos, if_true]
        generalize hgu : (0 : ℚ) ⊔ (1 - (d - now) / 60) = u
        have hu0 : (0 : ℚ) ≤ u := hgu ▸ le_max_left 0 _
        rcases le_total (((oldest :: restq).length : ℚ) / 10) 1 with hc | hc
        · rw [min_eq_left hc]
          linarith only [hpv, hn0, hu0]
        · rw [min_eq_right hc]
          linarith only [hpv, hu0]
      · simp only [hpos, if_false]
        rcases le_total (((oldest :: restq).length : ℚ) / 10) 1 with hc | hc
        · rw [min_eq_left hc]
          linarith only [hpv, hn0]
        · rw [min_eq_right hc]
          linarith only [hpv]
  · intro hp hd
    subst hp
    simp only [shouldCreateBatch, hmc, if_false, hstrat, emws, embs, ebf, hd,
      Priority.value, Nat.cast_ofNat, Nat.cast_one]
    rw [decide_eq_true_eq, htf]
    simp only [e3, e1]
    rcases le_total (((oldest :: restq).length : ℚ) / 10) 1 with hc | hc
    · rw [min_eq_left hc]
      constructor
      · intro h
        by_contra hn
        push_neg at hn
        have hn3 : (oldest :: restq).length ≤ 3 := by omega
        have hn' : ((oldest :: restq).length : ℚ) ≤ 3 := by exact_mod_cast hn3
        linarith only [h, hn']
      · intro h
        have h4 : (4 : ℚ) ≤ ((oldest :: restq).length : ℚ) := by exact_mod_cast h
        linarith only [h4]
    · rw [min_eq_right hc]
      constructor
      · intro _
        have h10 : (10 : ℚ) ≤ ((oldest :: restq).length : ℚ) := by
          linarith only [hc]
        have h10n : 10 ≤ (oldest :: restq).length := by exact_mod_cast h10
        omega
      · intro _
        linarith only []

/-- Witness for C3's amended theorem: a single-item NORMAL queue at
full wait is admitted; a four-item LOW queue at full wait is admitted
(and four is exactly the threshold). -/
theorem hybrid_admission_amended_witness :
    shouldCreateBatch defaultBatchConfig 0 Priority.NORMAL [normalReq] 5 0 = true ∧
    (shouldCreateBatch defaultBatchConfig 0 Priority.LOW
        [lowReq, lowReq, lowReq, lowReq] 5 0 = true ↔
      4 ≤ ([lowReq, lowReq, lowReq, lowReq] : List BatchRequest).length) :=
  ⟨(hybrid_admission_amended 0 Priority.NORMAL normalReq [] 5 0 (by decide)
      (by norm_num [defaultBatchConfig, normalReq])).1 (by decide),
   (hybrid_admission_amended 0 Priority.LOW lowReq [lowReq, lowReq, lowReq] 5 0
      (by decide) (by norm_num [defaultBatchConfig, lowReq])).2 rfl rfl⟩

/-- One entry of the `request_mapping` list built by
`_process_embedding_batch` (batch_processor.py lines 421-426): the
originating request and its `[start_idx, end_idx)` range (of length
`count`) into the combined text list. -/
structure MappingEntry where
  request : BatchRequest
  startIdx : Nat
  endIdx : Nat
  count : Nat
deriving DecidableEq, Repr

/-- The offset-tracking loop of `_process_embedding_batch` (lines
409-426): starting from the already-accumulated `texts`, append each
request's normalised text list and record its range.  Returns the final
combined text list and the mapping. -/
def buildMapping (texts : List String) :
    List BatchRequest → List String × List MappingEntry
  | [] => (texts, [])
  | req :: rest =>
      let reqTexts := normTexts req.texts
      let texts1 := texts ++ reqTexts
      let k := buildMapping texts1 rest
      (k.1, ⟨req, texts.length, texts1.length, reqTexts.length⟩ :: k.2)

/-- Python slice `l[s:e]`. -/
def pySlice {α : Type} (l : List α) (s e : Nat) : List α := (l.take e).drop s

/-- Concatenation of all requests' normalised text lists in submission
order — the combined `texts` list handed to the one embedding call. -/
def allTexts : List BatchRequest → List String
  | [] => []
  | r :: rs => normTexts r.texts ++ allTexts rs

/-- Closed form of the mapping when the accumulated prefix has length
`c`: consecutive ranges starting at offset `c`. -/
def mappingFrom (c : Nat) : List BatchRequest → List MappingEntry
  | [] => []
  | r :: rs =>
      ⟨r, c, c + (normTexts r.texts).length, (normTexts r.texts).length⟩ ::
        mappingFrom (c + (normTexts r.texts).length) rs

/-- Body of `_process_embedding_batch` (lines 401-470): build the
combined text list and the offset mapping; when there are texts, make
the single wire-level embedding call (its outcome is the environment
parameter `embedCall`, returning the vector list and the
backend-reported model on success); slice the returned vectors back to
each originating request, or synthesise per-request failures when the
call raises.  With no texts, no call is made and no results are
produced. -/
def processEmbeddingBatch {V : Type} (reqs : List BatchRequest)
    (embedCall : List String → Except String (List V × String)) :
    List (BatchResult (List V × String)) :=
  let texts := (buildMapping [] reqs).1
  let mapping := (buildMapping [] reqs).2
  if texts.isEmpty then []
  else
    match embedCall texts with
    | Except.ok (embs, mdl) =>
        mapping.map (fun m =>
          { requestId := m.request.id
            success := true
            result := some (pySlice embs m.startIdx m.endIdx, mdl)
            tokensUsed := m.count * 10
            costEstimate := (m.count : ℚ) * 0.0001 })
    | Except.error e =>
        mapping.map (fun m =>
          { requestId := m.request.id, success := false, error := some e })

/-- Concatenation, in order, of the embedding payloads of a result
list. -/
def concatEmbeddings {V : Type} :
    List (BatchResult (List V × String)) → List V
  | [] => []
  | r :: rs =>
      (match r.result with
       | some (em, _) => em
       | none => []) ++ concatEmbeddings rs

/-- The combined text list built by the loop is the accumulated prefix
followed by all requests' texts. -/
theorem buildMapping_fst :
    ∀ (reqs : List BatchRequest) (texts : List String),
    (buildMapping texts reqs).1 = texts ++ allTexts reqs := by
  intro reqs
  induction reqs with
  | nil => intro texts; simp [buildMapping, allTexts]
  | cons r rs ih =>
    intro texts
    simp [buildMapping, allTexts, ih, List.append_assoc]

/-- The mapping built by the loop starts at the accumulated prefix's
length and advances by each request's text count. -/
theorem buildMapping_snd :
    ∀ (reqs : List BatchRequest) (texts : List String),
    (buildMapping texts reqs).2 = mappingFrom texts.length reqs := by
  intro reqs
  induction reqs with
  | nil => intro texts; rfl
  | cons r rs ih =>
    intro texts
    simp [buildMapping, mappingFrom, ih, List.length_append]

/-- The mapping has one entry per request. -/
theorem mappingFrom_length :
    ∀ (reqs : List BatchRequest) (c : Nat),
    (mappingFrom c reqs).length = reqs.length := by
  intro reqs
  induction reqs with
  | nil => intro c; rfl
  | cons r rs ih => intro c; simp [mappingFrom, ih]

/-- Entry `i` of the mapping covers request `i`'s texts at offset
`c + L₁ + ... + Lᵢ₋₁`. -/
theorem mappingFrom_get? :
    ∀ (reqs : List BatchRequest) (c i : Nat),
    (mappingFrom c reqs).get? i =
      (reqs.get? i).map (fun r =>
        (⟨r, c + (allTexts (reqs.take i)).length,
          c + (allTexts (reqs.take i)).length + (normTexts r.texts).length,
          (normTexts r.texts).length⟩ : MappingEntry)) := by
  intro reqs
  induction reqs with
  | nil => intro c i; rfl
  | cons r rs ih =>
    intro c i
    cases i with
    | zero => simp [mappingFrom, allTexts]
    | succ j =>
      simp only [mappingFrom, List.get?_cons_succ, List.take_succ_cons]
      rw [ih]
      cases hg : rs.get? j with
      | none => rfl
      | some x => simp [allTexts, List.length_append, Nat.add_assoc]

/-- Length of a Python slice that stays within the list. -/
theorem pySlice_length {α : Type} (l : List α) (s e : Nat)
    (he : e ≤ l.length) : (pySlice l s e).length = e - s := by
  simp only [pySlice, List.length_drop, List.length_take]
  rw [min_eq_left he]

/-- A Python slice followed by the rest of the list reassembles the
suffix from the slice's start. -/
theorem pySlice_append_drop {α : Type} (l : List α) (s e : Nat)
    (hs : s ≤ e) (he : e ≤ l.length) :
    pySlice l s e ++ l.drop e = l.drop s := by
  have h1 : l.drop s = (l.take e ++ l.drop e).drop s := by
    rw [List.take_append_drop]
  rw [h1, List.drop_append_eq_append_drop, List.length_take, min_eq_left he,
    Nat.sub_eq_zero_of_le hs, List.drop_zero]
  rfl

/-- Splitting off a prefix of requests splits the combined texts. -/
theorem allTexts_append :
    ∀ (l1 l2 : List BatchRequest),
    allTexts (l1 ++ l2) = allTexts l1 ++ allTexts l2 := by
  intro l1 l2
  induction l1 with
  | nil => rfl
  | cons r rs ih => simp [allTexts, ih]

/-- The embedding slices of consecutive mapping entries starting at
offset `c` concatenate to the vector list's suffix from `c`, when the
vector list has exactly one vector per text. -/
theorem concat_slices {V : Type} (mdl : String) :
    ∀ (reqs : List BatchRequest) (c : Nat) (E : List V),
    E.length = c + (allTexts reqs).length →
    concatEmbeddings ((mappingFrom c reqs).map (fun m =>
      ({ requestId := m.request.id
         success := true
         result := some (pySlice E m.startIdx m.endIdx, mdl)
         tokensUsed := m.count * 10
         costEstimate := (m.count : ℚ) * 0.0001 } :
        BatchResult (List V × String)))) = E.drop c := by
  intro reqs
  induction reqs with
  | nil =>
    intro c E hE
    simp only [mappingFrom, List.map_nil, concatEmbeddings]
    rw [allTexts] at hE
    simp only [List.length_nil, Nat.add_zero] at hE
    rw [List.drop_eq_nil_of_le (le_of_eq hE)]
  | cons r rs ih =>
    intro c E hE
    rw [allTexts] at hE
    simp only [List.length_append] at hE
    simp only [mappingFrom, List.map_cons, concatEmbeddings]
    have hle : c + (normTexts r.texts).length ≤ E.length := by omega
    have hrec := ih (c + (normTexts r.texts).length) E (by omega)
    rw [hrec, pySlice_append_drop E c (c + (normTexts r.texts).length)
      (Nat.le_add_right _ _) hle]

/-- C5: embedding batch merging is lossless.  When the single
wire-level embed call succeeds and returns one vector per input text
(`E.length` equals the combined text count), `_process_embedding_batch`
produces one successful result per request; request `i`'s result
carries exactly `Lᵢ` vectors, namely the contiguous slice of the
returned vector list starting at offset `L₁+...+Lᵢ₋₁`; and the
concatenation of all per-request vectors, in order, is the full
returned list (an item whose texts field is a single string counts as
one text). -/
theorem embedding_batch_lossless {V : Type} (reqs : List BatchRequest)
    (E : List V) (mdl : String)
    (hE : E.length = (allTexts reqs).length)
    (hne : allTexts reqs ≠ []) :
    (processEmbeddingBatch reqs (fun _ => Except.ok (E, mdl))).length = reqs.length ∧
    (∀ (i : Nat) (r : BatchRequest), reqs.get? i = some r →
      (processEmbeddingBatch reqs (fun _ => Except.ok (E, mdl))).get? i =
        some { requestId := r.id
               success := true
               result := some (pySlice E (allTexts (reqs.take i)).length
                   ((allTexts (reqs.take i)).length + (normTexts r.texts).length),
                 mdl)
               tokensUsed := (normTexts r.texts).length * 10
               costEstimate := ((normTexts r.texts).length : ℚ) * 0.0001 } ∧
      (pySlice E (allTexts (reqs.take i)).length
          ((allTexts (reqs.take i)).length + (normTexts r.texts).length)).length =
        (normTexts r.texts).length) ∧
    concatEmbeddings (processEmbeddingBatch reqs (fun _ => Except.ok (E, mdl))) =
      E := by
  have hbm1 : (buildMapping [] reqs).1 = allTexts reqs := by
    rw [buildMapping_fst]
    rfl
  have hbm2 : (buildMapping [] reqs).2 = mappingFrom 0 reqs := by
    rw [buildMapping_snd]
    rfl
  have hemp : (buildMapping [] reqs).1.isEmpty = false := by
    rw [hbm1]
    cases hA : allTexts reqs with
    | nil => exact absurd hA hne
    | cons a as => rfl
  have hres : processEmbeddingBatch reqs (fun _ => Except.ok (E, mdl)) =
      (mappingFrom 0 reqs).map (fun m =>
        { requestId := m.request.id
          success := true
          result := some (pySlice E m.startIdx m.endIdx, mdl)
          tokensUsed := m.count * 10
          costEstimate := (m.count : ℚ) * 0.0001 }) := by
    simp [processEmbeddingBatch, hemp, hbm2]
  refine ⟨?_, ?_, ?_⟩
  · rw [hres, List.length_map, mappingFrom_length]
  · intro i r hr
    have hsub : (allTexts (reqs.take i)).length + (normTexts r.texts).length ≤
        E.length := by
      rw [hE]
      have hr' : reqs[i]? = some r := by
        rw [← List.get?_eq_getElem?]
        exact hr
      have ht : reqs.take (i + 1) = reqs.take i ++ [r] := by
        rw [List.take_succ, hr']
        rfl
      have h2 : allTexts (reqs.take (i + 1)) =
          allTexts (reqs.take i) ++ normTexts r.texts := by
        rw [ht, allTexts_append]
        simp [allTexts]
      have h3 : reqs = reqs.take (i + 1) ++ reqs.drop (i + 1) :=
        (List.take_append_drop _ _).symm
      have h4 : (allTexts (reqs.take i)).length + (normTexts r.texts).length =
          (allTexts (reqs.take (i + 1))).length := by
        rw [h2, List.length_append]
      rw [h4]
      conv_rhs => rw [h3]
      rw [allTexts_append, List.length_append]
      exact Nat.le_add_right _ _
    constructor
    · rw [hres, List.get?_map, mappingFrom_get?, hr]
      simp [Nat.zero_add]
    · rw [pySlice_length _ _ _ hsub]
      omega
  · rw [hres]
    rw [concat_slices mdl reqs 0 E (by rw [hE]; omega)]
    exact List.drop_zero E

/-- Witness for C5: two requests — a single-string item ("x") and a
two-text item (["y", "z"]) — against a three-vector response slice to
one and two vectors respectively, reassembling the full list. -/
theorem embedding_batch_lossless_witness :
    (processEmbeddingBatch
        [⟨"a", "embedding", Priority.NORMAL, 0, none, TextsField.single "x", true⟩,
         ⟨"b", "embedding", Priority.NORMAL, 0, none,
           TextsField.many ["y", "z"], true⟩]
        (fun _ => Except.ok (([1, 2, 3] : List Nat), "m"))).length = 2 ∧
    concatEmbeddings (processEmbeddingBatch
        [⟨"a", "embedding", Priority.NORMAL, 0, none, TextsField.single "x", true⟩,
         ⟨"b", "embedding", Priority.NORMAL, 0, none,
           TextsField.many ["y", "z"], true⟩]
        (fun _ => Except.ok (([1, 2, 3] : List Nat), "m"))) = [1, 2, 3] := by
  have h := embedding_batch_lossless
    [⟨"a", "embedding", Priority.NORMAL, 0, none, TextsField.single "x", true⟩,
     ⟨"b", "embedding", Priority.NORMAL, 0, none, TextsField.many ["y", "z"], true⟩]
    ([1, 2, 3] : List Nat) "m" (by decide) (by decide)
  exact ⟨h.1, h.2.2⟩

/-- Result-synthesis step of `_process_batch` (batch_processor.py
lines 333-370): the per-kind dispatch either produces the per-item
results, or raises before producing any — in which case a failure
result (success false, carrying the error message and the elapsed
time) is created for every request in the batch. -/
def processBatchResults {R : Type} (reqs : List BatchRequest)
    (dispatch : Except String (List (BatchResult R))) (elapsed : ℚ) :
    List (BatchResult R) :=
  match dispatch with
  | Except.ok rs => rs
  | Except.error e =>
      reqs.map (fun r =>
        { requestId := r.id, success := false, error := some e,
          processingTime := elapsed })

/-- Callback-delivery loop of `_process_batch` (lines 372-379): for
each result in order, the first request whose id matches receives the
result through its callback, when one is attached; results with no
matching request, and requests without callbacks, are skipped.
Returns the delivered (request id, result) pairs in delivery order. -/
def notifyCallbacks {R : Type} (reqs : List BatchRequest) :
    List (BatchResult R) → List (String × BatchResult R)
  | [] => []
  | res :: rest =>
      match reqs.find? (fun r => decide (r.id = res.requestId)) with
      | some req =>
          if req.hasCallback then
            (req.id, res) :: notifyCallbacks reqs rest
          else notifyCallbacks reqs rest
      | none => notifyCallbacks reqs rest

/-- When request ids are distinct, the id-lookup of the delivery loop
finds each request itself. -/
theorem find?_self_of_nodup :
    ∀ (reqs : List BatchRequest),
    (reqs.map (fun r => r.id)).Nodup →
    ∀ r ∈ reqs, reqs.find? (fun q => decide (q.id = r.id)) = some r := by
  intro reqs
  induction reqs with
  | nil =>
    intro _ r hr
    cases hr
  | cons q rest ih =>
    intro hnd r hr
    simp only [List.map_cons, List.nodup_cons] at hnd
    obtain ⟨hq, hnd'⟩ := hnd
    by_cases he : q.id = r.id
    · have hrq : r = q := by
        cases hr with
        | head => rfl
        | tail _ hmem =>
          exact absurd (he ▸ List.mem_map_of_mem (fun x => x.id) hmem) hq
      subst hrq
      exact List.find?_cons_of_pos _ (by simp)
    · have hrmem : r ∈ rest := by
        cases hr with
        | head => exact absurd rfl he
        | tail _ h => exact h
      rw [List.find?_cons_of_neg _ (by simp [he])]
      exact ih hnd' r hrmem

/-- Delivering a synthesised failure result per request notifies each
callback-carrying request exactly once, in order, when ids resolve to
the requests themselves. -/
theorem notify_synth {R : Type} (e : String) (elapsed : ℚ)
    (all : List BatchRequest) :
    ∀ (reqs : List BatchRequest),
    (∀ r ∈ reqs, all.find? (fun q => decide (q.id = r.id)) = some r) →
    notifyCallbacks all (reqs.map (fun r =>
        ({ requestId := r.id, success := false, error := some e,
           processingTime := elapsed } : BatchResult R))) =
      (reqs.filter (fun r => r.hasCallback)).map (fun r =>
        (r.id, { requestId := r.id, success := false, error := some e,
                 processingTime := elapsed })) := by
  intro reqs
  induction reqs with
  | nil => intro _; rfl
  | cons r rest ih =>
    intro h
    have hr := h r (List.mem_cons_self _ _)
    have htl := ih (fun x hx => h x (List.mem_cons_of_mem _ hx))
    simp only [List.map_cons, notifyCallbacks, List.filter_cons]
    rw [hr]
    by_cases hcb : r.hasCallback
    · simp [hcb, htl]
    · simp [hcb, htl]

/-- The callback-invocation view of the same delivery loop (lines
372-379): the `(request, result)` pairs for which
`request.callback(result)` is invoked — per result, the first request
whose id matches, when it carries a callback.  Distinct requests with
colliding ids carry distinct callbacks, so this view records which
request object is actually notified. -/
def firedCallbacks {R : Type} (reqs : List BatchRequest) :
    List (BatchResult R) → List (BatchRequest × BatchResult R)
  | [] => []
  | res :: rest =>
      match reqs.find? (fun r => decide (r.id = res.requestId)) with
      | some req =>
          if req.hasCallback then
            (req, res) :: firedCallbacks reqs rest
          else firedCallbacks reqs rest
      | none => firedCallbacks reqs rest

/-- First of two distinct batch requests sharing the generated id
`batch_1700000000_0` (ids are `batch_{epoch_second}_{index}`, so two
submissions in the same epoch second collide). -/
def dupReq1 : BatchRequest :=
  ⟨"batch_1700000000_0", "completion", Priority.NORMAL, 0, none,
    TextsField.many [], true⟩

/-- Second request with the same generated id as [dupReq1] but a
different request kind; both carry callbacks. -/
def dupReq2 : BatchRequest :=
  ⟨"batch_1700000000_0", "generation", Priority.NORMAL, 0, none,
    TextsField.many [], true⟩

/-- C6 counterexample: in a failed batch holding two distinct requests
with colliding ids, both synthesised failure results are delivered to
the first matching request — its callback fires twice — while the
second request's callback is never invoked, so that item is left
without a result, refuting the unconditional claim. -/
theorem duplicate_id_callback_lost_counterexample :
    dupReq1.id = dupReq2.id ∧
    dupReq1.hasCallback = true ∧
    dupReq2.hasCallback = true ∧
    (firedCallbacks [dupReq1, dupReq2]
        (processBatchResults [dupReq1, dupReq2]
          (Except.error "boom" : Except String (List (BatchResult Unit)))
          0)).map (fun pr => pr.1) = [dupReq1, dupReq1] ∧
    dupReq2 ∉ ((firedCallbacks [dupReq1, dupReq2]
        (processBatchResults [dupReq1, dupReq2]
          (Except.error "boom" : Except String (List (BatchResult Unit)))
          0)).map (fun pr => pr.1)) := by
  refine ⟨rfl, rfl, rfl, rfl, ?_⟩
  show dupReq2 ∉ [dupReq1, dupReq1]
  simp [dupReq1, dupReq2]

/-- C6 amended: when the batch body raises before producing per-item
results, every request in the batch receives a synthesised failure
`BatchResult` (success false, carrying the error message); provided
the request ids in the batch are distinct, the delivery loop fires
every attached callback exactly once with that request's failure
result, so no item is left without a result (with colliding ids, all
matching results go to the first such request and later duplicates'
callbacks never fire). -/
theorem batch_failure_synthesis {R : Type} (reqs : List BatchRequest)
    (e : String) (elapsed : ℚ)
    (hnodup : (reqs.map (fun r => r.id)).Nodup) :
    (processBatchResults reqs
        (Except.error e : Except String (List (BatchResult R))) elapsed).length =
      reqs.length ∧
    (∀ r ∈ reqs,
      ({ requestId := r.id, success := false, error := some e,
         processingTime := elapsed } : BatchResult R) ∈
        processBatchResults reqs
          (Except.error e : Except String (List (BatchResult R))) elapsed) ∧
    notifyCallbacks reqs (processBatchResults reqs
        (Except.error e : Except String (List (BatchResult R))) elapsed) =
      (reqs.filter (fun r => r.hasCallback)).map (fun r =>
        (r.id, { requestId := r.id, success := false, error := some e,
                 processingTime := elapsed })) := by
  refine ⟨?_, ?_, ?_⟩
  · simp [processBatchResults]
  · intro r hr
    simp only [processBatchResults]
    exact List.mem_map_of_mem _ hr
  · simp only [processBatchResults]
    exact notify_synth e elapsed reqs reqs (find?_self_of_nodup reqs hnodup)

/-- Witness for C6: two distinct-id requests, one with a callback and
one without; both get a synthesised failure result and exactly the
callback-carrying one is notified. -/
theorem batch_failure_synthesis_witness :
    (processBatchResults
        [⟨"a", "completion", Priority.NORMAL, 0, none, TextsField.many [], true⟩,
         ⟨"b", "completion", Priority.NORMAL, 0, none, TextsField.many [], false⟩]
        (Except.error "boom" : Except String (List (BatchResult Unit)))
        0).length = 2 ∧
    notifyCallbacks
        [⟨"a", "completion", Priority.NORMAL, 0, none, TextsField.many [], true⟩,
         ⟨"b", "completion", Priority.NORMAL, 0, none, TextsField.many [], false⟩]
        (processBatchResults
          [⟨"a", "completion", Priority.NORMAL, 0, none, TextsField.many [], true⟩,
           ⟨"b", "completion", Priority.NORMAL, 0, none, TextsField.many [], false⟩]
          (Except.error "boom" : Except String (List (BatchResult Unit))) 0) =
      [("a", { requestId := "a", success := false, error := some "boom",
               processingTime := 0 })] := by
  have h := batch_failure_synthesis
    [⟨"a", "completion", Priority.NORMAL, 0, none, TextsField.many [], true⟩,
     ⟨"b", "completion", Priority.NORMAL, 0, none, TextsField.many [], false⟩]
    "boom" (0 : ℚ) (R := Unit) (by decide)
  exact ⟨h.1, h.2.2⟩

end LearnX
